import Mathlib

/-!
Verification of the bounded-concurrency Prometheus query dispatcher in
`pkg/prom/query.go` (package `prom` of the cost-model repository).

The Go code is shallowly embedded as follows.

* External collaborators (the Prometheus `Client`, `http.NewRequest`,
  `json.Unmarshal`) are modelled by an `Oracle` record that fixes, for one
  worker execution, the outcome of each external call, exactly mirroring the
  values the Go code branches on.
* The internal method `(*Context).query` becomes `ctxQuery`, a pure function
  from an oracle and a query string to its returned pair `(raw, err)` plus a
  trace of the events it performs (semaphore acquire/release, the HTTP
  request it issues, the network-call return, the JSON decode).  The
  `defer ctx.semaphore.Return()` of the source is rendered faithfully: the
  release event is the last event on every path, because `defer` runs when
  the function returns.
* The goroutine body spawned by `(*Context).Query` becomes `worker`, which
  extends the `ctxQuery` trace with the two `ErrorCollector.Report` calls,
  the `NewQueryResults` parse, and the single channel send, in source order.
* `util.Semaphore`, `util.ErrorCollector` and `NewQueryResults` are not part
  of the given sources; they are modelled from the specification where
  needed (doc comments on those definitions say so).
* The concurrency bound is proved over a small-step transition system on
  worker phases which mirrors the phase structure of `ctxQuery`.
-/

namespace Prom

/-- Generic decoded JSON value: the model of what `json.Unmarshal` stores
into the `interface{}` variable `toReturn` in `query`. -/
inductive Value where
  | vNull : Value
  | vBool : Bool → Value
  | vNum : Int → Value
  | vStr : String → Value
  | vArr : List Value → Value
  | vObj : List (String × Value) → Value

/-- The error values produced by the query pipeline, one constructor per
`return`-with-error site of `query` in query.go plus the parse error of the
result parser.  The first four carry the data interpolated into the
`fmt.Errorf` message at the corresponding site. -/
inductive QueryErr where
  | newRequestFailed : String → String → QueryErr
  | transportNoResp : String → String → QueryErr
  | transportResp : Nat → String → String → QueryErr
  | unmarshalFailed : String → String → QueryErr
  | parseFailed : String → QueryErr
deriving DecidableEq

/-- Events performed by a worker, in program order.  `acquire`/`release` are
the semaphore operations, `request` is the single HTTP request handed to
`Client.Do` (method, URL path, encoded value of the `query` parameter,
whether a request body is attached), `netReturn` is `Client.Do` returning,
`decodeJson` is `json.Unmarshal`, `reportErr` is `ErrorCollector.Report`,
`parseRes` is `NewQueryResults`, `send` is the channel send `resCh <- results`,
and `closeCh` would be a `close` of the result channel (the source never
performs one). -/
inductive Event where
  | acquire : Event
  | release : Event
  | request : String → String → String → Bool → Event
  | netReturn : Event
  | decodeJson : Event
  | reportErr : Event
  | parseRes : Event
  | send : Event
  | closeCh : Event
deriving DecidableEq

/-- Outcome of the external calls made by one worker: what `http.NewRequest`
returns, what `Client.Do` returns (its error, and the response's status code
with `none` standing for a nil `*http.Response`), the advisory warnings, and
what `json.Unmarshal` yields on the returned body (`none` = unmarshal error,
whose message is `unmarshalMsg`). -/
structure Oracle where
  newRequestErr : Option String
  doErr : Option String
  respStatus : Option Nat
  warnings : List String
  unmarshalled : Option Value
  unmarshalMsg : String

/-- `epQuery = apiPrefix + "/query"` from query.go. -/
def epQuery : String := "/api/v1" ++ "/query"

/-- Hex digit used by percent-encoding. -/
def hexDigitChar (n : Nat) : Char :=
  if n < 10 then Char.ofNat (48 + n) else Char.ofNat (55 + n)

/-- Characters left unescaped by Go's `url.Values.Encode` percent-encoding. -/
def isUnreserved (c : Char) : Bool :=
  c.isAlphanum || c == '-' || c == '_' || c == '.' || c == '~'

/-- Percent-encoding of one character, as Go's `net/url` query encoding does
for ASCII text: space becomes `+`, unreserved characters stay, everything
else becomes `%XX`. -/
def escapeChar (c : Char) : String :=
  if c == ' ' then "+"
  else if isUnreserved c then String.singleton c
  else "%" ++ String.singleton (hexDigitChar (c.toNat / 16 % 16))
        ++ String.singleton (hexDigitChar (c.toNat % 16))

/-- Model of the query encoding performed by `q.Set("query", query);
u.RawQuery = q.Encode()` in query.go: the value of the `query` parameter is
the URL-escaped query text. -/
def queryEscape (s : String) : String :=
  String.join (s.data.map escapeChar)

/-- Result of one execution of the internal method `query`: the returned
`(interface{}, error)` pair and the event trace of the execution. -/
structure QueryOutcome where
  raw : Option Value
  err : Option QueryErr
  trace : List Event

/-- Shallow embedding of `(*Context).query` from query.go.  The trace of
every path starts with `acquire` and ends with `release` because the release
is deferred to function return.  Branching follows the source: a
`http.NewRequest` error returns before any request is issued; a `Client.Do`
error returns before decoding, with a message that includes the status code
exactly when the response is non-nil; otherwise the body is unmarshalled,
and an unmarshal error again returns nil with an error. -/
def ctxQuery (o : Oracle) (q : String) : QueryOutcome :=
  let reqEv : Event := .request "POST" epQuery (queryEscape q) false
  match o.newRequestErr with
  | some m => ⟨none, some (.newRequestFailed m q), [.acquire, .release]⟩
  | none =>
    match o.doErr with
    | some m =>
      match o.respStatus with
      | none =>
          ⟨none, some (.transportNoResp m q),
            [.acquire, reqEv, .netReturn, .release]⟩
      | some st =>
          ⟨none, some (.transportResp st m q),
            [.acquire, reqEv, .netReturn, .release]⟩
    | none =>
      match o.unmarshalled with
      | none =>
          ⟨none, some (.unmarshalFailed o.unmarshalMsg q),
            [.acquire, reqEv, .netReturn, .decodeJson, .release]⟩
      | some v =>
          ⟨some v, none,
            [.acquire, reqEv, .netReturn, .decodeJson, .release]⟩

/-- Field lookup in a decoded JSON object. -/
def getField : List (String × Value) → String → Option Value
  | [], _ => none
  | (k, v) :: rest, key => if k == key then some v else getField rest key

/-- Modelled from the spec: `NewQueryResults` (the Result Parser) is declared
outside the given sources; per §4.4 it validates the expected top-level shape
— a status indicator and a nested result payload — and on any shape mismatch
(including a nil input, which is what `query` returns on failure) it returns
a zero-value result together with a descriptive parse error.  `parseShape`
is the shape check: it yields the entries of the nested result payload when
the decoded value has the expected shape. -/
def parseShape (v : Value) : Option (List Value) :=
  match v with
  | .vObj fields =>
    match getField fields "status", getField fields "data" with
    | some (.vStr _), some (.vObj dataFields) =>
      match getField dataFields "result" with
      | some (.vArr xs) => some xs
      | _ => none
    | _, _ => none
  | _ => none

/-- Modelled from the spec (continued): the parser either recognises the
expected shape and returns its result entries, or returns the zero value and
a parse error. -/
def NewQueryResults : Option Value → List Value × Option QueryErr
  | none => ([], some (.parseFailed "query result is nil"))
  | some v =>
    match parseShape v with
    | some xs => (xs, none)
    | none => ([], some (.parseFailed "response shape mismatch"))

/-- One execution of the goroutine body spawned by `(*Context).Query`: the
value sent on the result channel, the arguments of the two
`ErrorCollector.Report` calls in order, and the full event trace. -/
structure WorkerRun where
  sent : List Value
  reports : List (Option QueryErr)
  trace : List Event

/-- Shallow embedding of the goroutine launched by `(*Context).Query`:
run `ctxQuery`, report its error, parse, report the parse error, send the
parsed results.  The source closes no channel, so no `closeCh` event is ever
emitted. -/
def worker (o : Oracle) (q : String) : WorkerRun :=
  let r := ctxQuery o q
  let pr := NewQueryResults r.raw
  ⟨pr.1, [r.err, pr.2],
    r.trace ++ [.reportErr, .parseRes, .reportErr, .send]⟩

def isAcquireEv : Event → Bool
  | .acquire => true
  | _ => false

def isReleaseEv : Event → Bool
  | .release => true
  | _ => false

def isRequestEv : Event → Bool
  | .request _ _ _ _ => true
  | _ => false

def isDecodeEv : Event → Bool
  | .decodeJson => true
  | _ => false

def isSendEv : Event → Bool
  | .send => true
  | _ => false

def isCloseEv : Event → Bool
  | .closeCh => true
  | _ => false

def isParseEv : Event → Bool
  | .parseRes => true
  | _ => false

/-- Count the events satisfying `p` that are performed while at least one
semaphore permit is held; the second argument is the number of permits held
when the trace starts. -/
def countWhileHeld (p : Event → Bool) : List Event → Nat → Nat
  | [], _ => 0
  | .acquire :: tr, h => countWhileHeld p tr (h + 1)
  | .release :: tr, h => countWhileHeld p tr (h - 1)
  | e :: tr, h =>
      (if p e && decide (0 < h) then 1 else 0) + countWhileHeld p tr h

/-- `true` when some `closeCh` event occurs at or after the first `send`. -/
def closesAfterSend (tr : List Event) : Bool :=
  (tr.dropWhile (fun e => !isSendEv e)).any isCloseEv

/-- Modelled from the spec: `util.ErrorCollector.Report` is declared outside
the given sources; per §4.2 it appends its argument to the collected
sequence exactly when the argument is non-nil, under mutual exclusion. -/
def Report (s : List QueryErr) (e : Option QueryErr) : List QueryErr :=
  match e with
  | none => s
  | some x => s ++ [x]

/-- Run the error collector over a sequence of `Report` calls starting from
the empty collection; the result models the snapshot `Errors()` returns
after all reporting is finished. -/
def runCollector (rs : List (Option QueryErr)) : List QueryErr :=
  rs.foldl Report []

/-- All `Report` arguments produced by a batch of workers, one oracle and
query string per worker, in per-worker program order. -/
def batchReports (env : List (Oracle × String)) : List (Option QueryErr) :=
  (env.map (fun p => (worker p.1 p.2).reports)).flatten

/-- The number of failing stages of one worker execution: how many of its
two `Report` calls carry a non-nil error. -/
def failCount (o : Oracle) (q : String) : Nat :=
  (worker o q).reports.countP (fun e => e.isSome)

/-- The mutable state owned by a `Context`: the error collector's contents,
the semaphore's available permits, and a fresh-channel allocator that gives
every `make(QueryResultsChan)` a distinct identity. -/
structure CtxState where
  collected : List QueryErr
  avail : Nat
  nextChan : Nat
deriving DecidableEq

/-- Shallow embedding of `NewContext` from query.go: an empty error
collector and a semaphore with the default 20 permits ("By default, allow 20
concurrent queries, which is the Prometheus default"). -/
def NewContextState : CtxState := ⟨[], 20, 0⟩

/-- A goroutine spawned by `(*Context).Query`: the query it will run and the
channel it will publish on. -/
structure Spawned where
  query : String
  ch : Nat
deriving DecidableEq

/-- Shallow embedding of the synchronous part of `(*Context).Query`: make a
fresh channel, launch one worker for the query on that channel, return the
channel immediately.  The returned value is the channel alone — the Go
signature returns only a `QueryResultsChan`, so no error can reach this
caller synchronously. -/
def QueryE (q : String) (s : CtxState) : Nat × CtxState × Spawned :=
  (s.nextChan, ⟨s.collected, s.avail, s.nextChan + 1⟩, ⟨q, s.nextChan⟩)

/-- The loop body of `QueryAll`: one `Query` call per input query, appending
each returned channel in input order. -/
def QueryAllAux : List String → CtxState → List Nat × CtxState × List Spawned
  | [], s => ([], s, [])
  | q :: qs, s =>
    let r := QueryE q s
    let rest := QueryAllAux qs r.2.1
    (r.1 :: rest.1, rest.2.1, r.2.2 :: rest.2.2)

/-- Shallow embedding of `(*Context).QueryAll`: the slice is initialised to
the non-nil empty slice `[]QueryResultsChan{}` (rendered `some`), then one
channel per query is appended by a call to `Query`. -/
def QueryAllGo (qs : List String) (s : CtxState) :
    Option (List Nat) × CtxState × List Spawned :=
  let r := QueryAllAux qs s
  (some r.1, r.2.1, r.2.2)

/-- The context state reached after `i` calls to `Query` starting from `s`:
only the channel allocator has moved. -/
def stateAfter (s : CtxState) (i : Nat) : CtxState :=
  ⟨s.collected, s.avail, s.nextChan + i⟩

/-- The events of all workers of a batch, given an assignment of oracles to
channels. -/
def systemTrace (env : Nat → Oracle) (ws : List Spawned) : List Event :=
  (ws.map (fun w => (worker (env w.ch) w.query).trace)).flatten

/-- The phase a worker of the transition system is in.  `preReq` (building
the request), `inFlight` (inside `Client.Do`) and `decoding` (inside
`json.Unmarshal`) are the phases during which the worker holds a semaphore
permit, mirroring `ctxQuery`, whose release is deferred to function
return. -/
inductive Phase where
  | idle : Phase
  | waiting : Phase
  | preReq : Phase
  | inFlight : Phase
  | decoding : Phase
  | done : Phase
deriving DecidableEq

def holdsPermit : Phase → Bool
  | .preReq => true
  | .inFlight => true
  | .decoding => true
  | _ => false

def isInFlightPh : Phase → Bool
  | .inFlight => true
  | _ => false

/-- Global state of a batch run: the phase of each worker and the number of
permits the semaphore has available. -/
structure Sys where
  phases : List Phase
  avail : Nat

def heldCount (s : Sys) : Nat := s.phases.countP holdsPermit

def inFlightCount (s : Sys) : Nat := s.phases.countP isInFlightPh

/-- Modelled from the spec where it concerns the semaphore: `util.Semaphore`
is declared outside the given sources; per §4.1 `Acquire` suspends until a
permit is available then takes one, and `Return` gives one back.  The
remaining transitions mirror the phase structure of `ctxQuery`: a worker
arrives, waits for a permit, takes one, either fails to build its request
(returning the permit, by the deferred release), or issues it; the network
call either fails (permit returned) or succeeds, in which case the body is
decoded while the permit is still held, and the permit is returned when the
function returns after the decode. -/
inductive Step : Sys → Sys → Prop where
  | arrive (s : Sys) (i : Nat) (h : i < s.phases.length)
      (hp : s.phases.getD i .idle = .idle) :
      Step s ⟨s.phases.set i .waiting, s.avail⟩
  | acquire (s : Sys) (i : Nat) (h : i < s.phases.length)
      (hp : s.phases.getD i .idle = .waiting) (ha : 0 < s.avail) :
      Step s ⟨s.phases.set i .preReq, s.avail - 1⟩
  | reqFail (s : Sys) (i : Nat) (h : i < s.phases.length)
      (hp : s.phases.getD i .idle = .preReq) :
      Step s ⟨s.phases.set i .done, s.avail + 1⟩
  | sendReq (s : Sys) (i : Nat) (h : i < s.phases.length)
      (hp : s.phases.getD i .idle = .preReq) :
      Step s ⟨s.phases.set i .inFlight, s.avail⟩
  | netFail (s : Sys) (i : Nat) (h : i < s.phases.length)
      (hp : s.phases.getD i .idle = .inFlight) :
      Step s ⟨s.phases.set i .done, s.avail + 1⟩
  | netOk (s : Sys) (i : Nat) (h : i < s.phases.length)
      (hp : s.phases.getD i .idle = .inFlight) :
      Step s ⟨s.phases.set i .decoding, s.avail⟩
  | finish (s : Sys) (i : Nat) (h : i < s.phases.length)
      (hp : s.phases.getD i .idle = .decoding) :
      Step s ⟨s.phases.set i .done, s.avail + 1⟩

/-- Initial state of a batch of `k` workers behind a semaphore of capacity
`n`: every worker idle, all permits available. -/
def initSys (k n : Nat) : Sys := ⟨List.replicate k .idle, n⟩

/-- Reflexive-transitive closure of `Step` from a given initial state. -/
inductive Reachable (s0 : Sys) : Sys → Prop where
  | refl : Reachable s0 s0
  | tail {s t : Sys} : Reachable s0 s → Step s t → Reachable s0 t

/-- Updating one entry of a phase list changes `countP` by the difference of
the indicator of the old and the new entry. -/
theorem countP_set_add (P : Phase → Bool) :
    ∀ (l : List Phase) (i : Nat) (v : Phase), i < l.length →
      (l.set i v).countP P + (if P (l.getD i .idle) then 1 else 0)
        = l.countP P + (if P v then 1 else 0)
  | [], i, v, h => absurd h (by simp)
  | a :: l, 0, v, _ => by
      simp [List.countP_cons]
      omega
  | a :: l, i + 1, v, h => by
      have ih := countP_set_add P l i v (by simpa using h)
      simp only [List.set_cons_succ, List.countP_cons, List.getD_cons_succ]
      omega

/-- Every step preserves the semaphore invariant: available permits plus
held permits equal the capacity. -/
theorem step_preserves_inv {n : Nat} {s t : Sys} (hs : Step s t)
    (hi : s.avail + heldCount s = n) : t.avail + heldCount t = n := by
  simp only [heldCount] at hi ⊢
  cases hs with
  | arrive i h hp =>
      have hc := countP_set_add holdsPermit s.phases i .waiting h
      rw [hp, show holdsPermit Phase.idle = false from rfl,
        show holdsPermit Phase.waiting = false from rfl] at hc
      simp at hc
      dsimp only
      omega
  | acquire i h hp ha =>
      have hc := countP_set_add holdsPermit s.phases i .preReq h
      rw [hp, show holdsPermit Phase.waiting = false from rfl,
        show holdsPermit Phase.preReq = true from rfl] at hc
      simp at hc
      dsimp only
      omega
  | reqFail i h hp =>
      have hc := countP_set_add holdsPermit s.phases i .done h
      rw [hp, show holdsPermit Phase.preReq = true from rfl,
        show holdsPermit Phase.done = false from rfl] at hc
      simp at hc
      dsimp only
      omega
  | sendReq i h hp =>
      have hc := countP_set_add holdsPermit s.phases i .inFlight h
      rw [hp, show holdsPermit Phase.preReq = true from rfl,
        show holdsPermit Phase.inFlight = true from rfl] at hc
      simp at hc
      dsimp only
      omega
  | netFail i h hp =>
      have hc := countP_set_add holdsPermit s.phases i .done h
      rw [hp, show holdsPermit Phase.inFlight = true from rfl,
        show holdsPermit Phase.done = false from rfl] at hc
      simp at hc
      dsimp only
      omega
  | netOk i h hp =>
      have hc := countP_set_add holdsPermit s.phases i .decoding h
      rw [hp, show holdsPermit Phase.inFlight = true from rfl,
        show holdsPermit Phase.decoding = true from rfl] at hc
      simp at hc
      dsimp only
      omega
  | finish i h hp =>
      have hc := countP_set_add holdsPermit s.phases i .done h
      rw [hp, show holdsPermit Phase.decoding = true from rfl,
        show holdsPermit Phase.done = false from rfl] at hc
      simp at hc
      dsimp only
      omega

/-- The semaphore invariant holds in every state reachable from the initial
state of a batch: available plus held permits equal the capacity. -/
theorem reachable_inv {k n : Nat} {s : Sys}
    (h : Reachable (initSys k n) s) : s.avail + heldCount s = n := by
  induction h with
  | refl => simp [initSys, heldCount, List.countP_replicate, holdsPermit]
  | tail _ hstep ih => exact step_preserves_inv hstep ih

/-- Workers inside the network call are among the permit holders. -/
theorem inFlight_le_held (s : Sys) : inFlightCount s ≤ heldCount s := by
  refine List.countP_mono_left ?_
  intro p _ hp
  cases p <;> simp [isInFlightPh, holdsPermit] at hp ⊢

/-- In every reachable state the number of held permits is at most the
capacity. -/
theorem reachable_held_le {k n : Nat} {s : Sys}
    (h : Reachable (initSys k n) s) : heldCount s ≤ n := by
  have := reachable_inv h
  omega

/-- The collector run over a report sequence keeps exactly the non-nil
reports, appended to the starting contents in order. -/
theorem foldl_report (rs : List (Option QueryErr)) :
    ∀ (acc : List QueryErr), rs.foldl Report acc = acc ++ rs.filterMap id := by
  induction rs with
  | nil => intro acc; simp
  | cons e rs ih =>
      intro acc
      cases e with
      | none => simpa [Report] using ih acc
      | some x => simp [Report, ih (acc ++ [x]), List.filterMap_cons]

/-- The snapshot after running the collector is exactly the sequence of
non-nil reports. -/
theorem runCollector_eq (rs : List (Option QueryErr)) :
    runCollector rs = rs.filterMap id := by
  simpa using foldl_report rs []

/-- Keeping the non-nil entries of an option list yields as many entries as
there are non-nil elements. -/
theorem length_filterMap_id (rs : List (Option QueryErr)) :
    (rs.filterMap id).length = rs.countP (fun e => e.isSome) := by
  induction rs with
  | nil => rfl
  | cons e rs ih =>
      cases e <;> simp [List.filterMap_cons, List.countP_cons, ih]

/-- `QueryAll` returns as many channels, and spawns as many workers, as
there are queries. -/
theorem queryAllAux_len : ∀ (qs : List String) (s : CtxState),
    (QueryAllAux qs s).1.length = qs.length ∧
      (QueryAllAux qs s).2.2.length = qs.length
  | [], _ => ⟨rfl, rfl⟩
  | q :: qs, s => by
      have ih := queryAllAux_len qs ⟨s.collected, s.avail, s.nextChan + 1⟩
      simp [QueryAllAux, QueryE, ih.1, ih.2]

/-- The i-th channel returned by the `QueryAll` loop is the `nextChan + i`-th
fresh channel when there is an i-th query, and does not exist otherwise. -/
theorem queryAllAux_chan : ∀ (qs : List String) (s : CtxState) (i : Nat),
    (QueryAllAux qs s).1.get? i = (qs.get? i).map (fun _ => s.nextChan + i)
  | [], _, i => by cases i <;> rfl
  | q :: qs, s, 0 => rfl
  | q :: qs, s, i + 1 => by
      have ih := queryAllAux_chan qs ⟨s.collected, s.avail, s.nextChan + 1⟩ i
      simp only [QueryAllAux, QueryE, List.get?_cons_succ] at ih ⊢
      rw [ih]
      cases qs.get? i
      · simp
      · simp
        omega

/-- The i-th spawned worker runs the i-th query and publishes on the i-th
returned channel. -/
theorem queryAllAux_spawn : ∀ (qs : List String) (s : CtxState) (i : Nat),
    (QueryAllAux qs s).2.2.get? i
      = (qs.get? i).map (fun q => Spawned.mk q (s.nextChan + i))
  | [], _, i => by cases i <;> rfl
  | q :: qs, s, 0 => rfl
  | q :: qs, s, i + 1 => by
      have ih := queryAllAux_spawn qs ⟨s.collected, s.avail, s.nextChan + 1⟩ i
      simp only [QueryAllAux, QueryE, List.get?_cons_succ] at ih ⊢
      rw [ih]
      cases qs.get? i
      · simp
      · simp
        omega

/-- Every channel handed out by the `QueryAll` loop is at least the next
fresh channel of the starting state. -/
theorem queryAllAux_chan_lb : ∀ (qs : List String) (s : CtxState) (x : Nat),
    x ∈ (QueryAllAux qs s).1 → s.nextChan ≤ x
  | [], _, x => by intro hx; simp [QueryAllAux] at hx
  | q :: qs, s, x => by
      intro hx
      simp only [QueryAllAux, QueryE, List.mem_cons] at hx
      rcases hx with h | h
      · omega
      · have := queryAllAux_chan_lb qs ⟨s.collected, s.avail, s.nextChan + 1⟩ x h
        simp at this
        omega

/-- The channels handed out by the `QueryAll` loop are pairwise distinct:
each call to `Query` makes a fresh channel. -/
theorem queryAllAux_nodup : ∀ (qs : List String) (s : CtxState),
    (QueryAllAux qs s).1.Nodup
  | [], _ => List.nodup_nil
  | q :: qs, s => by
      have ih := queryAllAux_nodup qs ⟨s.collected, s.avail, s.nextChan + 1⟩
      simp only [QueryAllAux, QueryE]
      refine List.nodup_cons.mpr ⟨?_, ih⟩
      intro hmem
      have := queryAllAux_chan_lb qs ⟨s.collected, s.avail, s.nextChan + 1⟩ _ hmem
      simp at this

/-- An oracle for a fully successful query: request built, network call
succeeds, body unmarshals to a well-shaped Prometheus response. -/
def oSuccess : Oracle :=
  ⟨none, none, some 200, [],
    some (Value.vObj [("status", Value.vStr "success"),
      ("data", Value.vObj [("result", Value.vArr [])])]), ""⟩

/-- An oracle for a query whose `Client.Do` call reports an error while
handing back an HTTP 500 response: a transport failure. -/
def oT500 : Oracle :=
  ⟨none, some "server returned HTTP status 500", some 500, [], none, ""⟩

/-- An oracle for an HTTP 500 response delivered with a nil error from
`Client.Do` (the behaviour of the stock Prometheus client, whose `Do` does
not turn a non-2xx status into an error): the body, a Prometheus error
document, unmarshals fine. -/
def oHTTP500ok : Oracle :=
  ⟨none, none, some 500, [],
    some (Value.vObj [("status", Value.vStr "error")]), ""⟩

/-- The batch of the spec's HTTP-500 scenario: two queries, both failing in
transport. -/
def env500 : List (Oracle × String) := [(oT500, "q1"), (oT500, "q2")]

/-- C1: for every input sequence of K queries, K ≥ 0, `QueryAll` returns a
sequence of exactly K result channels; the i-th returned channel is exactly
the channel produced by an independent call to `Query` on the i-th input
query (and the i-th spawned worker is that call's worker), the channels
being pairwise distinct — length-preserving and order-preserving. -/
theorem C1_queryAll_length_order : ∀ (qs : List String) (s : CtxState),
    (QueryAllGo qs s).1 = some (QueryAllAux qs s).1 ∧
    (QueryAllAux qs s).1.length = qs.length ∧
    (QueryAllGo qs s).2.2.length = qs.length ∧
    (∀ i : Nat,
      (QueryAllAux qs s).1.get? i
          = (qs.get? i).map (fun q => (QueryE q (stateAfter s i)).1) ∧
      (QueryAllGo qs s).2.2.get? i
          = (qs.get? i).map (fun q => (QueryE q (stateAfter s i)).2.2)) ∧
    (QueryAllAux qs s).1.Nodup := by
  intro qs s
  refine ⟨rfl, (queryAllAux_len qs s).1, (queryAllAux_len qs s).2, ?_,
    queryAllAux_nodup qs s⟩
  intro i
  constructor
  · rw [queryAllAux_chan qs s i]
    rfl
  · show (QueryAllAux qs s).2.2.get? i = _
    rw [queryAllAux_spawn qs s i]
    rfl

/-- C10: `QueryAll` applied to zero queries returns the non-nil empty slice
of channels, spawns no workers, issues no backend request under any oracle
assignment, and leaves the context state — error collector and semaphore —
unchanged. -/
theorem C10_empty_queryAll : ∀ (s : CtxState) (env : Nat → Oracle),
    QueryAllGo [] s = (some [], s, []) ∧
    systemTrace env (QueryAllGo [] s).2.2 = [] ∧
    (systemTrace env (QueryAllGo [] s).2.2).countP isRequestEv = 0 :=
  fun _ _ => ⟨rfl, rfl, rfl⟩

/-- C2 counterexample: on a fully successful query the worker sends exactly
once, but no completion signal (channel close) ever follows the send — the
source leaves closing to the receiver — so the claim that the producer
closes the channel after its single send is false. -/
theorem C2_counterexample :
    ¬ ((worker oSuccess "up").trace.countP isSendEv = 1 ∧
       closesAfterSend (worker oSuccess "up").trace = true) := by
  decide

/-- C2 (amended): for every query, the worker sends exactly one value on the
returned channel — never zero, never more than one, whatever the outcome of
each stage — and then terminates immediately (the send is its final event);
the producer never closes the channel: per the source's documented
convention the receiver is responsible for closing it. -/
theorem C2_amended_single_send : ∀ (o : Oracle) (q : String),
    (worker o q).trace.countP isSendEv = 1 ∧
    (worker o q).trace.countP isCloseEv = 0 ∧
    (worker o q).trace.getLast? = some Event.send := by
  rintro ⟨nre, de, rs, ws, um, uem⟩ q
  cases nre <;> cases de <;> cases rs <;> cases um <;> exact ⟨rfl, rfl, rfl⟩

/-- C4 counterexample: on a successful query the JSON decode runs while the
worker still holds its gate permit, because the release is deferred to the
return of `query`; the claim that decode is never performed while holding a
permit is false. -/
theorem C4_counterexample :
    ¬ countWhileHeld isDecodeEv (ctxQuery oSuccess "up").trace 0 = 0 := by
  decide

/-- C4 (amended): in every worker execution the gate permit is released
exactly once, when the internal query operation returns — hence after the
decode on the paths where a decode occurs, so the decode phase does run
while a permit is held; only the parse phase is never performed while
holding a gate permit. -/
theorem C4_amended_release_at_return : ∀ (o : Oracle) (q : String),
    (ctxQuery o q).trace.countP isReleaseEv = 1 ∧
    (ctxQuery o q).trace.getLast? = some Event.release ∧
    countWhileHeld isParseEv (worker o q).trace 0 = 0 := by
  rintro ⟨nre, de, rs, ws, um, uem⟩ q
  cases nre <;> cases de <;> cases rs <;> cases um <;> exact ⟨rfl, rfl, rfl⟩

/-- C5: on every execution path of the internal query operation the permit
acquired at entry is released exactly once by the same worker, as the last
action before the operation returns (the deferred release covers
request-construction failure, transport failure, decode failure, and
success); consequently, in every reachable state of a batch run behind a
capacity-n gate the held-permit count stays within [0, n]. -/
theorem C5_scoped_acquire_release :
    (∀ (o : Oracle) (q : String),
      (ctxQuery o q).trace.countP isAcquireEv = 1 ∧
      (ctxQuery o q).trace.countP isReleaseEv = 1 ∧
      (ctxQuery o q).trace.head? = some Event.acquire ∧
      (ctxQuery o q).trace.getLast? = some Event.release) ∧
    (∀ (k n : Nat) (s : Sys), Reachable (initSys k n) s → heldCount s ≤ n) := by
  constructor
  · rintro ⟨nre, de, rs, ws, um, uem⟩ q
    cases nre <;> cases de <;> cases rs <;> cases um <;> exact ⟨rfl, rfl, rfl, rfl⟩
  · intro k n s h
    exact reachable_held_le h

/-- C5 witness: concrete instance of the scoped-release theorem. -/
theorem C5_scoped_acquire_release_witness :
    (ctxQuery oSuccess "up").trace.countP isAcquireEv = 1 ∧
    heldCount (initSys 3 2) ≤ 2 :=
  ⟨(C5_scoped_acquire_release.1 oSuccess "up").1,
   C5_scoped_acquire_release.2 3 2 (initSys 3 2) Reachable.refl⟩

/-- C3: the admission gate's capacity is fixed at construction (20 by
default in `NewContext`), and for any batch size k ≥ n the number of
concurrently in-flight backend requests never exceeds n in any reachable
state of the batch's transition system. -/
theorem C3_concurrency_bound :
    NewContextState.avail = 20 ∧
    ∀ (n k : Nat), n ≤ k → ∀ s : Sys, Reachable (initSys k n) s →
      inFlightCount s ≤ n := by
  refine ⟨rfl, ?_⟩
  intro n k _ s h
  exact le_trans (inFlight_le_held s) (reachable_held_le h)

/-- C3 witness: concrete instance of the concurrency bound. -/
theorem C3_concurrency_bound_witness :
    NewContextState.avail = 20 ∧ inFlightCount (initSys 25 20) ≤ 20 :=
  ⟨C3_concurrency_bound.1,
   C3_concurrency_bound.2 20 25 (by decide) (initSys 25 20) Reachable.refl⟩

/-- C6 counterexample: in the spec's own scenario — two queries both
answered by a failing HTTP-500 backend call — the aggregator snapshot after
draining has 4 entries, not 2: each transport-failed query also reports a
parse error, because the nil payload fails parsing. -/
theorem C6_counterexample :
    ¬ (runCollector (batchReports env500)).length = 2 := by
  decide

/-- C6 (amended): the aggregator's snapshot after draining, for any
interleaving of the workers' reports, is a permutation of exactly the
non-nil reported errors — no report lost, none duplicated — so its size is
the number of failed stages, not the number of failed queries: a worker
contributes 2 entries when its transport/decode stage fails (its nil payload
then also fails parsing), 1 when only parsing fails, 0 otherwise. -/
theorem C6_amended_stage_counts :
    ∀ (env : List (Oracle × String)) (l : List (Option QueryErr)),
    l.Perm (batchReports env) →
    (runCollector l).Perm ((batchReports env).filterMap id) ∧
    (runCollector l).length = (batchReports env).countP (fun e => e.isSome) ∧
    ∀ (o : Oracle) (q : String),
      (worker o q).reports.countP (fun e => e.isSome)
        = (if (ctxQuery o q).err.isSome then 2
           else if (NewQueryResults (ctxQuery o q).raw).2.isSome then 1
           else 0) := by
  intro env l hp
  refine ⟨?_, ?_, ?_⟩
  · rw [runCollector_eq]
    exact hp.filterMap id
  · rw [runCollector_eq, (hp.filterMap id).length_eq, length_filterMap_id]
  · rintro ⟨nre, de, rs, ws, um, uem⟩ q
    cases nre <;> cases de <;> cases rs <;> cases um
    all_goals first
      | rfl
      | (rename_i v
         show List.countP _ [none, (NewQueryResults (some v)).2] = _
         cases hpr : (NewQueryResults (some v)).2 <;>
           simp [List.countP_cons, ctxQuery, hpr])

/-- C6 witness: concrete instance of the amended aggregation theorem on the
HTTP-500 scenario batch. -/
theorem C6_amended_stage_counts_witness :
    (runCollector (batchReports env500)).length
        = (batchReports env500).countP (fun e => e.isSome) ∧
    (worker oT500 "q1").reports.countP (fun e => e.isSome)
        = (if (ctxQuery oT500 "q1").err.isSome then 2
           else if (NewQueryResults (ctxQuery oT500 "q1").raw).2.isSome then 1
           else 0) :=
  ⟨(C6_amended_stage_counts env500 (batchReports env500) (List.Perm.refl _)).2.1,
   (C6_amended_stage_counts env500 (batchReports env500)
      (List.Perm.refl _)).2.2 oT500 "q1"⟩

/-- On every parse failure the modelled parser hands back the zero result
value. -/
theorem NewQueryResults_zero_on_err : ∀ (r : Option Value),
    (NewQueryResults r).2.isSome = true → (NewQueryResults r).1 = [] := by
  intro r h
  cases r with
  | none => rfl
  | some v =>
      cases hps : parseShape v with
      | none => simp [NewQueryResults, hps]
      | some xs => simp [NewQueryResults, hps] at h

/-- Filtering the two report slots keeps exactly the present errors in
order. -/
theorem filterMap_pair (a b : Option QueryErr) :
    List.filterMap id [a, b] = a.toList ++ b.toList := by
  cases a <;> cases b <;> rfl

/-- C7: no transport, decode, or parse error reaches the caller of
`Query`/`QueryAll` through a return value or a channel: every non-nil error
of a worker ends up in (and only in) the aggregator snapshot; a query that
failed at any stage still sends the zero result value on its own channel;
every worker performs its single send regardless of failure; and the i-th
channel's value is a function of the i-th worker's own execution alone, so a
failing query cannot corrupt a sibling's delivery. -/
theorem C7_errors_funneled : ∀ (o : Oracle) (q : String),
    runCollector (worker o q).reports
      = (ctxQuery o q).err.toList
          ++ (NewQueryResults (ctxQuery o q).raw).2.toList ∧
    ((worker o q).sent = [] ∨
      ((ctxQuery o q).err = none
        ∧ (NewQueryResults (ctxQuery o q).raw).2 = none)) ∧
    (worker o q).trace.countP isSendEv = 1 ∧
    ∀ (env : List (Oracle × String)) (i : Nat),
      (env.map (fun p => (worker p.1 p.2).sent)).get? i
        = (env.get? i).map (fun p => (worker p.1 p.2).sent) := by
  intro o q
  refine ⟨?_, ?_, ?_, ?_⟩
  · rw [runCollector_eq]
    exact filterMap_pair (ctxQuery o q).err (NewQueryResults (ctxQuery o q).raw).2
  · rcases o with ⟨nre, de, rs, ws, um, uem⟩
    cases nre <;> cases de <;> cases rs <;> cases um
    all_goals
      first
        | exact Or.inl rfl
        | (rename_i v
           cases hpr : (NewQueryResults (some v)).2 with
           | none => exact Or.inr ⟨rfl, hpr⟩
           | some x =>
               refine Or.inl ?_
               show (NewQueryResults (some v)).1 = []
               exact NewQueryResults_zero_on_err (some v) (by rw [hpr]; rfl))
  · rcases o with ⟨nre, de, rs, ws, um, uem⟩
    cases nre <;> cases de <;> cases rs <;> cases um <;> rfl
  · intro env i
    rw [List.get?_eq_getElem?, List.get?_eq_getElem?, List.getElem?_map]

/-- C8 counterexample: a backend response with status 500 delivered with a
nil error from `Client.Do` (the stock client's behaviour for non-2xx) is not
treated as a transport error: `query` returns no error and proceeds to
decode the body as a success payload. -/
theorem C8_counterexample :
    ¬ ((ctxQuery oHTTP500ok "up").err ≠ none ∧
       (ctxQuery oHTTP500ok "up").trace.countP isDecodeEv = 0) := by
  decide

/-- C8 (amended): the internal query operation treats a response as a
transport error exactly when `Client.Do` itself returns a non-nil error — in
that case it returns an error (whose value records the status code whenever
a response is present) and never decodes the body; a non-2xx response
accompanied by a nil client error is decoded as a success payload. -/
theorem C8_amended_do_error_is_transport : ∀ (o : Oracle) (q : String),
    (∀ m, o.doErr = some m →
      (ctxQuery o q).err.isSome = true ∧ (ctxQuery o q).raw = none ∧
      (ctxQuery o q).trace.countP isDecodeEv = 0) ∧
    (∀ m st, o.newRequestErr = none → o.doErr = some m →
      o.respStatus = some st →
      (ctxQuery o q).err = some (QueryErr.transportResp st m q)) ∧
    (o.newRequestErr = none → o.doErr = none →
      (ctxQuery o q).trace.countP isDecodeEv = 1) := by
  rintro ⟨nre, de, rs, ws, um, uem⟩ q
  refine ⟨?_, ?_, ?_⟩
  · intro m hm
    cases nre <;> cases de <;> cases rs <;> cases um <;>
      first
        | exact ⟨rfl, rfl, rfl⟩
        | cases hm
  · intro m st h1 h2 h3
    cases nre with
    | some a => cases h1
    | none =>
        cases de with
        | none => cases h2
        | some dm =>
            cases rs with
            | none => cases h3
            | some st2 =>
                injection h2 with h2
                injection h3 with h3
                subst h2
                subst h3
                rfl
  · intro h1 h2
    cases nre with
    | some a => cases h1
    | none =>
        cases de with
        | some dm => cases h2
        | none => cases rs <;> cases um <;> rfl

/-- C8 witness: concrete instances of the amended transport-error
characterization. -/
theorem C8_amended_do_error_is_transport_witness :
    ((ctxQuery oT500 "q1").err.isSome = true ∧ (ctxQuery oT500 "q1").raw = none ∧
      (ctxQuery oT500 "q1").trace.countP isDecodeEv = 0) ∧
    (ctxQuery oT500 "q1").err
        = some (QueryErr.transportResp 500 "server returned HTTP status 500" "q1") ∧
    (ctxQuery oHTTP500ok "up").trace.countP isDecodeEv = 1 :=
  ⟨(C8_amended_do_error_is_transport oT500 "q1").1 _ rfl,
   (C8_amended_do_error_is_transport oT500 "q1").2.1 _ _ rfl rfl rfl,
   (C8_amended_do_error_is_transport oHTTP500ok "up").2.2 rfl rfl⟩

/-- C9: whenever request construction succeeds, the worker issues exactly
one HTTP request, and that request is a POST to the fixed endpoint path
"/api/v1/query" under the API prefix, carries the query text URL-escaped as
the value of the `query` parameter, and has no request body. -/
theorem C9_single_post_request : ∀ (o : Oracle) (q : String),
    o.newRequestErr = none →
    (ctxQuery o q).trace.countP isRequestEv = 1 ∧
    Event.request "POST" epQuery (queryEscape q) false ∈ (ctxQuery o q).trace ∧
    epQuery = "/api/v1/query" := by
  rintro ⟨nre, de, rs, ws, um, uem⟩ q h
  cases nre <;> cases de <;> cases rs <;> cases um <;>
    first
      | exact ⟨rfl, by simp [ctxQuery], rfl⟩
      | cases h

/-- C9 witness: concrete instance of the request-shape theorem. -/
theorem C9_single_post_request_witness :
    (ctxQuery oSuccess "up").trace.countP isRequestEv = 1 ∧
    Event.request "POST" epQuery (queryEscape "up") false
        ∈ (ctxQuery oSuccess "up").trace ∧
    epQuery = "/api/v1/query" :=
  C9_single_post_request oSuccess "up" rfl

end Prom
